/-
  Verification development for the react-keybind shortcut dispatch engine
  (src/index.tsx, class ShortcutProvider).

  The engine is shallowly embedded: the component's mutable instance fields
  become a `ProviderState` record, each method becomes a pure state
  transformer, JavaScript objects become association lists, handler
  functions become opaque numeric identifiers whose invocations are
  collected as outputs, and the host timers (setInterval / setTimeout)
  become explicit `tick` / `seqTimeout` steps with the wall clock passed in
  as a parameter.  Calling a JavaScript `undefined` value (a TypeError that
  aborts the timer callback) is modelled by the `crashed` flag of
  `TickResult`.
-/
import Mathlib

/-! ### JavaScript string primitives

`jsToLower` models `String.prototype.toLowerCase` on the ASCII range (all
keys, tag names and combo tokens handled by the engine are ASCII).
`splitPlus` models `split('+')` and `joinSep` models `Array.prototype.join`.
-/

def charLower (c : Char) : Char :=
  if 'A' ≤ c ∧ c ≤ 'Z' then Char.ofNat (c.toNat + 32) else c

def jsToLower (s : String) : String :=
  ⟨s.data.map charLower⟩

def splitPlusAux : List Char → List Char → List String
  | [], acc => [⟨acc.reverse⟩]
  | c :: cs, acc =>
    if c = '+' then ⟨acc.reverse⟩ :: splitPlusAux cs []
    else splitPlusAux cs (c :: acc)

def splitPlus (s : String) : List String :=
  splitPlusAux s.data []

def joinSep (sep : String) : List String → String
  | [] => ""
  | x :: xs => xs.foldl (fun acc y => acc ++ sep ++ y) x

/-! ### Base-36 rendering of the clock

`toB36` models `Number.prototype.toString(36)` on natural numbers, used by
the engine for `Date.now().toString(36)` shortcut ids.  `b36val`/`ofB36`
are decoding helpers used only to prove injectivity.
-/

def b36char (d : Nat) : Char :=
  if d < 10 then Char.ofNat (48 + d) else Char.ofNat (87 + d)

def b36val (c : Char) : Nat :=
  if 97 ≤ c.toNat then c.toNat - 87 else c.toNat - 48

def toB36Aux : Nat → Nat → List Nat
  | 0, _ => []
  | fuel + 1, n => if n = 0 then [] else n % 36 :: toB36Aux fuel (n / 36)

def toB36Digits (n : Nat) : List Nat :=
  toB36Aux n n

def toB36 (n : Nat) : String :=
  if n = 0 then "0" else ⟨((toB36Digits n).reverse.map b36char)⟩

def ofB36 : List Nat → Nat
  | [] => 0
  | d :: ds => d + 36 * ofB36 ds


/-! ### Association lists

JavaScript plain objects used as string-keyed maps (`listeners`,
`holdListeners`, `holdDurations`, `sequenceListeners`) are embedded as
association lists.  Property assignment replaces an existing entry in
place or appends; `delete` removes the entry; absent lookup is `none`
(JavaScript `undefined`).
-/

def lookupA {α : Type} : List (String × α) → String → Option α
  | [], _ => none
  | (k', v) :: rest, k => if k' = k then some v else lookupA rest k

def insertA {α : Type} (m : List (String × α)) (k : String) (v : α) : List (String × α) :=
  if (m.map Prod.fst).contains k then
    m.map (fun p => if p.1 = k then (k, v) else p)
  else m ++ [(k, v)]

def deleteA {α : Type} (m : List (String × α)) (k : String) : List (String × α) :=
  m.filter (fun p => ! (p.1 == k))

/-! ### Data model

`Shortcut` mirrors the `IShortcut` interface: `method` is an opaque
handler identifier.  `HoldCallback` is the data captured by the closure
passed to `createTimer` (the locally computed `keysDown` array and the
`keyPress` combo string of the triggering key-down event).
`ProviderState` collects the mutable instance fields of the
`ShortcutProvider` class plus its React state (`shortcuts`) and the
`ignoreTagNames` prop.  `sequenceTimer` stores the absolute expiry time of
the pending `setTimeout`, `holdInterval` the data of the live
`setInterval` callback, if any.
-/

structure Shortcut where
  description : String
  hold : Bool
  holdDuration : Nat
  id : String
  keys : List String
  method : Nat
  sequence : Bool
  title : String
deriving DecidableEq, Repr

structure HoldCallback where
  capturedKeys : List String
  keyPress : String
deriving DecidableEq, Repr

structure ProviderState where
  holdDurations : List (String × Nat)
  holdInterval : Option HoldCallback
  holdListeners : List (String × Nat)
  holdTimer : Nat
  keysDown : List String
  listeners : List (String × Nat)
  previousKeys : List String
  sequenceListeners : List (String × Nat)
  sequenceTimer : Option Nat
  shortcuts : List Shortcut
  ignoreTagNames : Option (List String)
deriving DecidableEq, Repr

/-- A `React.KeyboardEvent` restricted to the fields the engine reads. -/
structure KeyboardEvent where
  key : String
  ctrlKey : Bool
  altKey : Bool
  metaKey : Bool
  targetTagName : String
deriving DecidableEq, Repr

/-- Outputs of one `keyDown` call: handler identifiers invoked from the
instantaneous table and from the sequence table, and whether
`e.preventDefault()` was called. -/
structure KeyDownResult where
  state : ProviderState
  instInvoked : List Nat
  seqInvoked : List Nat
  prevented : Bool
deriving DecidableEq, Repr

/-- Outcome of one 100ms interval tick.  `crashed = true` models the
TypeError raised by calling `this.holdListeners[keyPress]` when that
entry is `undefined`; the exception aborts the rest of the callback. -/
structure TickResult where
  state : ProviderState
  invoked : List Nat
  crashed : Bool
deriving DecidableEq, Repr

/-- Fresh provider instance: all instance fields at their initializers,
React state `{ shortcuts: [] }`, with the `ignoreTagNames` prop. -/
def initialState (ignoreTags : Option (List String)) : ProviderState :=
  { holdDurations := []
    holdInterval := none
    holdListeners := []
    holdTimer := 0
    keysDown := []
    listeners := []
    previousKeys := []
    sequenceListeners := []
    sequenceTimer := none
    shortcuts := []
    ignoreTagNames := ignoreTags }

/-! ### transformKeys (static) -/

/-- The token-level switch inside `transformKeys`: lower-case, then map
`opt`/`option` to `alt`, `control` to `ctrl`, `cmd`/`command` to `meta`. -/
def transformToken (key : String) : String :=
  let keyEvent := jsToLower key
  if keyEvent = "opt" then "alt"
  else if keyEvent = "option" then "alt"
  else if keyEvent = "control" then "ctrl"
  else if keyEvent = "cmd" then "meta"
  else if keyEvent = "command" then "meta"
  else keyEvent

/-- One element of the mapped array: split on `+`, transform each token,
join with `+`. -/
def transformOne (rawKeys : String) : String :=
  joinSep "+" ((splitPlus rawKeys).map transformToken)

/-- `ShortcutProvider.transformKeys` (src/index.tsx lines 143-163). -/
def transformKeys (keys : List String) : List String :=
  keys.map transformOne


/-! ### Engine operations -/

/-- `resetTimer` (lines 373-379): only when an interval is live does it
clear the interval and zero the elapsed counter. -/
def resetTimer (s : ProviderState) : ProviderState :=
  match s.holdInterval with
  | some _ => { s with holdInterval := none, holdTimer := 0 }
  | none => s

/-- `createTimer` (lines 168-173): installs the 100ms interval; the body
of the callback is executed by `tick` below.  Note it does not reset the
elapsed counter. -/
def createTimer (s : ProviderState) (cb : HoldCallback) : ProviderState :=
  { s with holdInterval := some cb }

/-- The built-in default ignore list merged with the prop
(`ignoreForTagNames = ['input']`, lines 84 and 182-184). -/
def ignoreList (s : ProviderState) : List String :=
  match s.ignoreTagNames with
  | some tags => tags.map jsToLower ++ ["input"]
  | none => ["input"]

/-- The `keysDown` array built locally by `keyDown` from the event's
modifier flags plus the lower-cased key (lines 190-201). -/
def eventKeys (e : KeyboardEvent) : List String :=
  (if e.ctrlKey then ["ctrl"] else []) ++
  (if e.altKey then ["alt"] else []) ++
  (if e.metaKey then ["meta"] else []) ++
  [jsToLower e.key]

/-- The combo string `keyPress = keysDown.join('+')` of an event. -/
def comboString (e : KeyboardEvent) : String :=
  joinSep "+" (eventKeys e)

/-- `keyDown` (lines 178-242).  `now` is the wall-clock time of the event
in milliseconds; the sequence `setTimeout` is recorded as the absolute
expiry `now + 2000` (re-arming it overwrites, i.e. cancels, the pending
one).  Handler calls are reported in the result rather than executed. -/
def keyDown (s : ProviderState) (e : KeyboardEvent) (now : Nat) : KeyDownResult :=
  let ignore := ignoreList s
  let key := jsToLower e.key
  if ignore.contains (jsToLower e.targetTagName) ∨ s.keysDown.contains key then
    { state := s, instInvoked := [], seqInvoked := [], prevented := false }
  else
    let keysDown := eventKeys e
    let keyPress := joinSep "+" keysDown
    let instOut :=
      match lookupA s.listeners keyPress with
      | some h => ([h], true)
      | none => ([], false)
    let s1 := { s with keysDown := s.keysDown ++ keysDown }
    let s2 := createTimer (resetTimer s1) { capturedKeys := keysDown, keyPress := keyPress }
    let s3 := { s2 with previousKeys := s2.previousKeys ++ keysDown }
    let sequenceKeys := joinSep "," s3.previousKeys
    let seqOut :=
      match lookupA s3.sequenceListeners sequenceKeys with
      | some h => [h]
      | none => []
    let s4 := { s3 with sequenceTimer := some (now + 2000) }
    { state := s4, instInvoked := instOut.1, seqInvoked := seqOut, prevented := instOut.2 }

/-- `keyUp` (lines 247-263): removes the event's modifier tokens and key
from `keysDown` and unconditionally resets the hold timer. -/
def keyUp (s : ProviderState) (e : KeyboardEvent) : ProviderState :=
  let keysUp := eventKeys e
  resetTimer { s with keysDown := s.keysDown.filter (fun k => ¬ keysUp.contains k) }

/-- The `keysDown.forEach` body of the interval callback (lines 214-220):
for each captured key token, when the elapsed counter has reached that
token's registered hold duration (`undefined` compares false), call the
hold listener for the full combo string and reset the timer.  A missing
hold listener is a TypeError: the callback aborts with `crashed`. -/
def tickLoop : ProviderState → List String → String → List Nat → TickResult
  | st, [], _, out => { state := st, invoked := out, crashed := false }
  | st, k :: ks, keyPress, out =>
    match lookupA st.holdDurations k with
    | some d =>
      if d ≤ st.holdTimer then
        match lookupA st.holdListeners keyPress with
        | some h => tickLoop (resetTimer st) ks keyPress (out ++ [h])
        | none => { state := st, invoked := out, crashed := true }
      else tickLoop st ks keyPress out
    | none => tickLoop st ks keyPress out

/-- One firing of the 100ms interval installed by `createTimer`
(lines 168-173 with the callback from lines 213-221): run the callback,
then increment `holdTimer` by 100 — unless the callback aborted with a
TypeError, which also skips the increment.  With no live interval no tick
occurs (identity). -/
def tick (s : ProviderState) : TickResult :=
  match s.holdInterval with
  | none => { state := s, invoked := [], crashed := false }
  | some cb =>
    let r := tickLoop s cb.capturedKeys cb.keyPress []
    if r.crashed then r
    else { state := { r.state with holdTimer := r.state.holdTimer + 100 }, invoked := r.invoked, crashed := false }

/-- `n` consecutive interval ticks (100ms apart); stops early on a crash. -/
def ticksN : ProviderState → Nat → TickResult
  | s, 0 => { state := s, invoked := [], crashed := false }
  | s, n + 1 =>
    let r := tick s
    if r.crashed then r
    else
      let r' := ticksN r.state n
      { state := r'.state, invoked := r.invoked ++ r'.invoked, crashed := r'.crashed }

/-- The pending sequence `setTimeout` may fire at time `now`. -/
def seqTimeoutEnabled (s : ProviderState) (now : Nat) : Prop :=
  ∃ exp, s.sequenceTimer = some exp ∧ exp ≤ now

/-- Body of the sequence timeout (lines 237-240): clear the buffer of
previously pressed keys and forget the timer handle. -/
def seqTimeout (s : ProviderState) : ProviderState :=
  { s with previousKeys := [], sequenceTimer := none }

/-- The shortcut record built by `registerShortcut` (lines 287-296);
`clock` is the value of `Date.now()` during the call. -/
def mkChordShortcut (method : Nat) (transformedKeys : List String)
    (title description : String) (hold : Bool) (duration clock : Nat) : Shortcut :=
  { id := toB36 clock
    description := description
    hold := hold
    holdDuration := duration
    keys := transformedKeys
    method := method
    sequence := false
    title := title }

/-- `registerShortcut` (lines 271-322).  The conflict pre-check scans the
target table (hold listeners when a hold duration is given, plain
listeners otherwise) for any of the transformed keys; on conflict the
whole call is dropped.  `setState` is synchronous in this single-threaded
model. -/
def registerShortcut (s : ProviderState) (method : Nat) (keys : List String)
    (title description : String) (holdDuration : Option Nat) (clock : Nat) : ProviderState :=
  let hold := holdDuration.isSome
  let duration := holdDuration.getD 0
  let transformedKeys := transformKeys keys
  let shortcut := mkChordShortcut method transformedKeys title description hold duration clock
  let table := if hold then s.holdListeners else s.listeners
  let conflict := transformedKeys.any (fun k => (table.map Prod.fst).contains k)
  if conflict then s
  else
    let s' :=
      if hold then
        { s with
          holdDurations := transformedKeys.foldl (fun m k => insertA m k duration) s.holdDurations
          holdListeners := transformedKeys.foldl (fun m k => insertA m k method) s.holdListeners }
      else
        { s with listeners := transformedKeys.foldl (fun m k => insertA m k method) s.listeners }
    { s' with shortcuts := s'.shortcuts ++ [shortcut] }

/-- The shortcut record built by `registerSequenceShortcut`
(lines 340-349).  Note: `keys` is stored exactly as passed in. -/
def mkSequenceShortcut (method : Nat) (keys : List String)
    (title description : String) (clock : Nat) : Shortcut :=
  { id := toB36 clock
    description := description
    hold := false
    holdDuration := 0
    keys := keys
    method := method
    sequence := true
    title := title }

/-- `registerSequenceShortcut` (lines 330-368): the routing key is
`keys.join(',').toLowerCase()`; conflict against the sequence table only. -/
def registerSequenceShortcut (s : ProviderState) (method : Nat) (keys : List String)
    (title description : String) (clock : Nat) : ProviderState :=
  let shortcut := mkSequenceShortcut method keys title description clock
  let keyEvent := jsToLower (joinSep "," keys)
  let conflict := (s.sequenceListeners.map Prod.fst).contains keyEvent
  if conflict then s
  else
    { s with
      sequenceListeners := insertA s.sequenceListeners keyEvent method
      shortcuts := s.shortcuts ++ [shortcut] }

/-- `unregisterShortcut` (lines 384-409): delete routing entries for each
transformed key (or for the comma-joined sequence key), then filter out of
the snapshot every shortcut all of whose stored keys occur in the
transformed request (the `forEach` builds `match` with `&&`). -/
def unregisterShortcut (s : ProviderState) (keys : List String) (sequence : Bool) : ProviderState :=
  let transformedKeys := transformKeys keys
  let s' :=
    if sequence then
      { s with sequenceListeners := deleteA s.sequenceListeners (joinSep "," transformedKeys) }
    else
      { s with
        listeners := transformedKeys.foldl (fun m k => deleteA m k) s.listeners
        holdListeners := transformedKeys.foldl (fun m k => deleteA m k) s.holdListeners
        holdDurations := transformedKeys.foldl (fun m k => deleteA m k) s.holdDurations }
  { s' with
    shortcuts := s'.shortcuts.filter (fun sc =>
      ! sc.keys.foldl (fun m k => m && transformedKeys.contains k) true) }

/-! ### Reachable states

One constructor per entry point of the engine: construction, the two key
event handlers, the two timer callbacks, and the three registry
operations. -/

inductive Reachable : ProviderState → Prop
  | init (ignoreTags : Option (List String)) : Reachable (initialState ignoreTags)
  | keyDown {s} (e : KeyboardEvent) (now : Nat) :
      Reachable s → Reachable (keyDown s e now).state
  | keyUp {s} (e : KeyboardEvent) : Reachable s → Reachable (keyUp s e)
  | tick {s} : Reachable s → Reachable (tick s).state
  | seqTimeout {s} : Reachable s → Reachable (seqTimeout s)
  | register {s} (method : Nat) (keys : List String) (title description : String)
      (holdDuration : Option Nat) (clock : Nat) :
      Reachable s → Reachable (registerShortcut s method keys title description holdDuration clock)
  | registerSeq {s} (method : Nat) (keys : List String) (title description : String)
      (clock : Nat) :
      Reachable s → Reachable (registerSequenceShortcut s method keys title description clock)
  | unregister {s} (keys : List String) (sequence : Bool) :
      Reachable s → Reachable (unregisterShortcut s keys sequence)


/-- Left inverse of `toB36`, used only to prove id injectivity. -/
def decodeB36 (s : String) : Nat :=
  ofB36 ((s.data.map b36val).reverse)

/-- State after registering a hold shortcut for the bare key `a` with a
300ms duration and then pressing `a` alone: the paradigm single-key hold. -/
def bareHoldState (h clock t0 : Nat) : ProviderState :=
  (keyDown (registerShortcut (initialState none) h ["a"] "T" "D" (some 300) clock)
    { key := "a", ctrlKey := false, altKey := false, metaKey := false, targetTagName := "div" } t0).state

/-- State after registering a hold shortcut for the combo `ctrl+s` with a
300ms duration and then pressing `s` with ctrl held: the paradigm
multi-key hold. -/
def comboHoldState (h clock t0 : Nat) : ProviderState :=
  (keyDown (registerShortcut (initialState none) h ["ctrl+s"] "T" "D" (some 300) clock)
    { key := "s", ctrlKey := true, altKey := false, metaKey := false, targetTagName := "div" } t0).state

/-! ### Specification-side normalizer (for the refinement claim C6) -/

/-- Modelled from the spec (§4.1 Key Normalizer): the alias table
`opt`/`option` to `alt`, `control` to `ctrl`, `cmd`/`command` to `meta`;
this is the specification side of the refinement claim and is compared
with the source-derived `transformKeys`. -/
def specAliasPairs : List (String × String) :=
  [("opt", "alt"), ("option", "alt"), ("control", "ctrl"), ("cmd", "meta"), ("command", "meta")]

/-- Modelled from the spec: a token is lower-cased and rewritten through
the alias table; unrecognized tokens pass through lower-cased. -/
def normalizeSpecToken (t : String) : String :=
  match lookupA specAliasPairs (jsToLower t) with
  | some r => r
  | none => jsToLower t

/-- Modelled from the spec: each `+`-joined combination is split,
normalized token-wise and re-joined. -/
def normalizeSpec (keys : List String) : List String :=
  keys.map (fun combo => joinSep "+" ((splitPlus combo).map normalizeSpecToken))

/-! ### Evaluation checks -/

example : toB36 0 = "0" := by decide
example : toB36 35 = "z" := by decide
example : toB36 36 = "10" := by decide
example : jsToLower "Cmd+K" = "cmd+k" := by decide
example : splitPlus "Cmd+K" = ["Cmd", "K"] := by decide
example : joinSep "+" ["ctrl", "s"] = "ctrl+s" := by decide
example : transformKeys ["Cmd+K"] = ["meta+k"] := by decide
example : transformKeys ["Opt+Control+X", "command"] = ["alt+ctrl+x", "meta"] := by decide

/-! ### Helper lemmas -/

@[simp] lemma resetTimer_holdInterval (s : ProviderState) :
    (resetTimer s).holdInterval = none ∨ resetTimer s = s := by
  cases h : s.holdInterval <;> simp [resetTimer, h]

@[simp] lemma resetTimer_keysDown (s : ProviderState) :
    (resetTimer s).keysDown = s.keysDown := by
  cases h : s.holdInterval <;> simp [resetTimer, h]

@[simp] lemma resetTimer_previousKeys (s : ProviderState) :
    (resetTimer s).previousKeys = s.previousKeys := by
  cases h : s.holdInterval <;> simp [resetTimer, h]

@[simp] lemma resetTimer_listeners (s : ProviderState) :
    (resetTimer s).listeners = s.listeners := by
  cases h : s.holdInterval <;> simp [resetTimer, h]

@[simp] lemma resetTimer_holdListeners (s : ProviderState) :
    (resetTimer s).holdListeners = s.holdListeners := by
  cases h : s.holdInterval <;> simp [resetTimer, h]

@[simp] lemma resetTimer_holdDurations (s : ProviderState) :
    (resetTimer s).holdDurations = s.holdDurations := by
  cases h : s.holdInterval <;> simp [resetTimer, h]

@[simp] lemma resetTimer_sequenceListeners (s : ProviderState) :
    (resetTimer s).sequenceListeners = s.sequenceListeners := by
  cases h : s.holdInterval <;> simp [resetTimer, h]

@[simp] lemma resetTimer_sequenceTimer (s : ProviderState) :
    (resetTimer s).sequenceTimer = s.sequenceTimer := by
  cases h : s.holdInterval <;> simp [resetTimer, h]

@[simp] lemma resetTimer_shortcuts (s : ProviderState) :
    (resetTimer s).shortcuts = s.shortcuts := by
  cases h : s.holdInterval <;> simp [resetTimer, h]

@[simp] lemma resetTimer_ignoreTagNames (s : ProviderState) :
    (resetTimer s).ignoreTagNames = s.ignoreTagNames := by
  cases h : s.holdInterval <;> simp [resetTimer, h]

lemma keyDown_state_shortcuts (s : ProviderState) (e : KeyboardEvent) (now : Nat) :
    (keyDown s e now).state.shortcuts = s.shortcuts := by
  unfold keyDown
  dsimp only
  split
  · rfl
  · simp [createTimer]

lemma keyUp_shortcuts (s : ProviderState) (e : KeyboardEvent) :
    (keyUp s e).shortcuts = s.shortcuts := by
  simp [keyUp]

lemma tickLoop_state_shortcuts (ks : List String) :
    ∀ (st : ProviderState) (kp : String) (out : List Nat),
      (tickLoop st ks kp out).state.shortcuts = st.shortcuts := by
  induction ks with
  | nil => intro st kp out; rfl
  | cons k ks ih =>
    intro st kp out
    unfold tickLoop
    cases hd : lookupA st.holdDurations k with
    | none => simpa using ih st kp out
    | some d =>
      simp only []
      split
      · cases hl : lookupA st.holdListeners kp with
        | none => simp
        | some h => simp [ih, resetTimer_shortcuts]
      · simpa using ih st kp out

lemma tick_state_shortcuts (s : ProviderState) :
    (tick s).state.shortcuts = s.shortcuts := by
  unfold tick
  cases h : s.holdInterval with
  | none => rfl
  | some cb =>
    simp only []
    split
    · simp [tickLoop_state_shortcuts]
    · simp [tickLoop_state_shortcuts]

lemma seqTimeout_shortcuts (s : ProviderState) :
    (seqTimeout s).shortcuts = s.shortcuts := by
  simp [seqTimeout]

lemma registerShortcut_shortcuts_cases (s : ProviderState) (m : Nat) (keys : List String)
    (t d : String) (dur : Option Nat) (clock : Nat) :
    (registerShortcut s m keys t d dur clock).shortcuts = s.shortcuts ∨
      (registerShortcut s m keys t d dur clock).shortcuts =
        s.shortcuts ++ [mkChordShortcut m (transformKeys keys) t d dur.isSome (dur.getD 0) clock] := by
  unfold registerShortcut
  dsimp only
  repeat' split
  all_goals simp_all

lemma registerSequenceShortcut_shortcuts_cases (s : ProviderState) (m : Nat)
    (keys : List String) (t d : String) (clock : Nat) :
    (registerSequenceShortcut s m keys t d clock).shortcuts = s.shortcuts ∨
      (registerSequenceShortcut s m keys t d clock).shortcuts =
        s.shortcuts ++ [mkSequenceShortcut m keys t d clock] := by
  unfold registerSequenceShortcut
  dsimp only
  repeat' split
  all_goals simp_all

lemma unregisterShortcut_shortcuts_subset (s : ProviderState) (keys : List String)
    (sequence : Bool) (sc : Shortcut) :
    sc ∈ (unregisterShortcut s keys sequence).shortcuts → sc ∈ s.shortcuts := by
  unfold unregisterShortcut
  split <;> exact fun h => (List.mem_filter.mp h).1

lemma lookupA_none_not_contains {α : Type} {m : List (String × α)} {k : String}
    (h : lookupA m k = none) : (m.map Prod.fst).contains k = false := by
  induction m with
  | nil => rfl
  | cons p rest ih =>
    obtain ⟨k', v⟩ := p
    by_cases hk : k' = k
    · simp [lookupA, hk] at h
    · simp only [lookupA, if_neg hk] at h
      simpa [Ne.symm hk] using ih h

lemma lookupA_append_right {α : Type} {m : List (String × α)} {k : String} (v : α)
    (h : lookupA m k = none) : lookupA (m ++ [(k, v)]) k = some v := by
  induction m with
  | nil => simp [lookupA]
  | cons p rest ih =>
    obtain ⟨k', v'⟩ := p
    by_cases hk : k' = k
    · simp [lookupA, hk] at h
    · simp only [lookupA, if_neg hk] at h ⊢
      exact ih h

lemma lookupA_filter_nil {α : Type} {m : List (String × α)} {k : String}
    (h : lookupA m k = none) : m.filter (fun p => p.1 == k) = [] := by
  induction m with
  | nil => rfl
  | cons p rest ih =>
    obtain ⟨k', v'⟩ := p
    by_cases hk : k' = k
    · simp [lookupA, hk] at h
    · simp only [lookupA, if_neg hk] at h
      simpa [hk] using ih h

lemma deleteA_absent {α : Type} {m : List (String × α)} {k : String}
    (h : lookupA m k = none) : deleteA m k = m := by
  induction m with
  | nil => rfl
  | cons p rest ih =>
    obtain ⟨k', v'⟩ := p
    by_cases hk : k' = k
    · simp [lookupA, hk] at h
    · simp only [lookupA, if_neg hk] at h
      have hrest := ih h
      unfold deleteA at hrest ⊢
      rw [List.filter_cons, hrest]
      simp [hk]

lemma foldl_deleteA_absent {α : Type} {m : List (String × α)} {ks : List String}
    (h : ∀ k ∈ ks, lookupA m k = none) : ks.foldl (fun acc k => deleteA acc k) m = m := by
  induction ks with
  | nil => rfl
  | cons k ks ih =>
    have hk := h k (List.mem_cons_self k ks)
    simp only [List.foldl_cons, deleteA_absent hk]
    exact ih (fun x hx => h x (List.mem_cons_of_mem k hx))

lemma foldl_and_eq_all (l : List String) (p : String → Bool) (b : Bool) :
    l.foldl (fun m k => m && p k) b = (b && l.all p) := by
  induction l generalizing b with
  | nil => simp
  | cons x xs ih => simp [ih, Bool.and_assoc]

lemma tick_of_no_interval {s : ProviderState} (h : s.holdInterval = none) :
    tick s = { state := s, invoked := [], crashed := false } := by
  simp [tick, h]

lemma ticksN_of_no_interval {s : ProviderState} (h : s.holdInterval = none) :
    ∀ m, ticksN s m = { state := s, invoked := [], crashed := false } := by
  intro m
  induction m with
  | zero => rfl
  | succ m ih =>
    unfold ticksN
    simp [tick_of_no_interval h, ih]

lemma b36val_b36char : ∀ d, d < 36 → b36val (b36char d) = d := by decide

lemma toB36Aux_digits_lt : ∀ fuel n d, d ∈ toB36Aux fuel n → d < 36 := by
  intro fuel
  induction fuel with
  | zero => intro n d hd; simp [toB36Aux] at hd
  | succ fuel ih =>
    intro n d hd
    by_cases hn : n = 0
    · simp [toB36Aux, hn] at hd
    · simp only [toB36Aux, if_neg hn, List.mem_cons] at hd
      rcases hd with hd | hd
      · subst hd
        exact Nat.mod_lt _ (by omega)
      · exact ih _ _ hd

lemma toB36Aux_ofB36 : ∀ fuel n, n ≤ fuel → ofB36 (toB36Aux fuel n) = n := by
  intro fuel
  induction fuel with
  | zero =>
    intro n hn
    interval_cases n
    rfl
  | succ fuel ih =>
    intro n hn
    by_cases hz : n = 0
    · simp [toB36Aux, hz, ofB36]
    · have hdiv : n / 36 ≤ fuel := by
        have := Nat.div_lt_self (Nat.pos_of_ne_zero hz) (by omega : 1 < 36)
        omega
      simp only [toB36Aux, if_neg hz, ofB36, ih _ hdiv]
      omega


lemma decodeB36_toB36 : ∀ n, decodeB36 (toB36 n) = n := by
  intro n
  by_cases hz : n = 0
  · subst hz; decide
  · have hgen : ∀ l : List Nat, (∀ d ∈ l, d < 36) → l.map (fun d => b36val (b36char d)) = l := by
      intro l hl
      induction l with
      | nil => rfl
      | cons x xs ih =>
        simp only [List.map_cons, List.cons.injEq]
        exact ⟨b36val_b36char x (hl x (List.mem_cons_self x xs)),
          ih (fun d hd => hl d (List.mem_cons_of_mem x hd))⟩
    have hmap : (toB36Digits n).map (fun d => b36val (b36char d)) = toB36Digits n :=
      hgen _ (fun d hd => toB36Aux_digits_lt n n d hd)
    simp only [decodeB36, toB36, if_neg hz]
    show ofB36 ((((toB36Digits n).reverse.map b36char).map b36val).reverse) = n
    rw [List.map_map, List.map_reverse, List.reverse_reverse]
    show ofB36 ((toB36Digits n).map (fun d => b36val (b36char d))) = n
    rw [hmap]
    exact toB36Aux_ofB36 n n (Nat.le_refl n)

lemma toB36_injective {m n : Nat} (h : toB36 m = toB36 n) : m = n := by
  have := decodeB36_toB36 m
  rw [h, decodeB36_toB36 n] at this
  exact this.symm

lemma ticksN_comboHold : ∀ (n : Nat) (st : ProviderState),
    st.holdInterval = some { capturedKeys := ["ctrl", "s"], keyPress := "ctrl+s" } →
    st.holdDurations = [("ctrl+s", 300)] →
    (ticksN st n).invoked = [] ∧ (ticksN st n).crashed = false := by
  intro n
  induction n with
  | zero => intro st h1 h2; exact ⟨rfl, rfl⟩
  | succ n ih =>
    intro st h1 h2
    have htick : tick st =
        { state := { st with holdTimer := st.holdTimer + 100 }, invoked := [], crashed := false } := by
      simp [tick, h1, tickLoop, h2, lookupA]
    have hrec := ih { st with holdTimer := st.holdTimer + 100 } (by simp [h1]) (by simp [h2])
    unfold ticksN
    rw [htick]
    dsimp only
    simp [hrec.1, hrec.2]


set_option maxHeartbeats 2000000 in
lemma bareHoldState_eq (h clock t0 : Nat) :
    bareHoldState h clock t0 =
      { holdDurations := [("a", 300)]
        holdInterval := some { capturedKeys := ["a"], keyPress := "a" }
        holdListeners := [("a", h)]
        holdTimer := 0
        keysDown := ["a"]
        listeners := []
        previousKeys := ["a"]
        sequenceListeners := []
        sequenceTimer := some (t0 + 2000)
        shortcuts := [mkChordShortcut h ["a"] "T" "D" true 300 clock]
        ignoreTagNames := none } := rfl

set_option maxHeartbeats 2000000 in
lemma comboHoldState_eq (h clock t0 : Nat) :
    comboHoldState h clock t0 =
      { holdDurations := [("ctrl+s", 300)]
        holdInterval := some { capturedKeys := ["ctrl", "s"], keyPress := "ctrl+s" }
        holdListeners := [("ctrl+s", h)]
        holdTimer := 0
        keysDown := ["ctrl", "s"]
        listeners := []
        previousKeys := ["ctrl", "s"]
        sequenceListeners := []
        sequenceTimer := some (t0 + 2000)
        shortcuts := [mkChordShortcut h ["ctrl+s"] "T" "D" true 300 clock]
        ignoreTagNames := none } := rfl

/-! ### Claim C6 : the key normalizer -/


lemma transformToken_eq_specToken (t : String) : transformToken t = normalizeSpecToken t := by
  simp only [transformToken, normalizeSpecToken, specAliasPairs, lookupA]
  split_ifs <;> first | rfl | simp_all

/-- C6: the normalizer returns a same-length list in which every
`+`-segment is lower-cased with `opt`/`option` rewritten to `alt`,
`control` to `ctrl` and `cmd`/`command` to `meta`, other tokens passing
through lower-cased; it agrees with the specification-side normalizer on
every input, and `normalize(["Cmd+K"]) = ["meta+k"]`.  It is a pure
function, hence deterministic by construction. -/
theorem transformKeys_normalizer_contract :
    (∀ keys, transformKeys keys = normalizeSpec keys ∧
      (transformKeys keys).length = keys.length)
    ∧ transformKeys ["Cmd+K"] = ["meta+k"] := by
  refine ⟨fun keys => ⟨?_, by simp [transformKeys]⟩, by decide⟩
  have hfun : transformToken = normalizeSpecToken := funext transformToken_eq_specToken
  unfold transformKeys normalizeSpec transformOne
  rw [hfun]

/-! ### Claim C1 : instantaneous dispatch on key-down -/

/-- C1: on a key-down whose target tag is not in the ignore list and
whose key is not already recorded as down, if the canonical combo string
(ctrl/alt/meta flags plus the lower-cased key) exactly matches an entry in
the instantaneous table then that handler is invoked exactly once and the
event's default action is prevented; on an auto-repeat key-down (key
already in `keysDown`) or an ignored target, no handler is invoked and
the state is unchanged. -/
theorem keyDown_instantaneous_dispatch (s : ProviderState) (e : KeyboardEvent)
    (now : Nat) (h : Nat) :
    (¬ (ignoreList s).contains (jsToLower e.targetTagName) = true →
     ¬ s.keysDown.contains (jsToLower e.key) = true →
     lookupA s.listeners (comboString e) = some h →
     (keyDown s e now).instInvoked = [h] ∧ (keyDown s e now).prevented = true)
    ∧ ((ignoreList s).contains (jsToLower e.targetTagName) = true ∨
        s.keysDown.contains (jsToLower e.key) = true →
       keyDown s e now = { state := s, instInvoked := [], seqInvoked := [], prevented := false }) := by
  constructor
  · intro hig hkd hl
    simp only [comboString] at hl
    unfold keyDown
    rw [if_neg (not_or.mpr ⟨hig, hkd⟩)]
    dsimp only
    rw [hl]
    exact ⟨rfl, rfl⟩
  · intro hor
    unfold keyDown
    rw [if_pos hor]

/-- Witness for C1 at a concrete state: after registering handler 7 for
`ctrl+k`, a `ctrl`-modified key-down of `k` on a `DIV` target invokes the
handler once and prevents the default. -/
theorem keyDown_instantaneous_dispatch_witness :
    (keyDown (registerShortcut (initialState none) 7 ["ctrl+k"] "t" "d" none 0)
      { key := "k", ctrlKey := true, altKey := false, metaKey := false, targetTagName := "DIV" } 5).instInvoked = [7] ∧
    (keyDown (registerShortcut (initialState none) 7 ["ctrl+k"] "t" "d" none 0)
      { key := "k", ctrlKey := true, altKey := false, metaKey := false, targetTagName := "DIV" } 5).prevented = true :=
  (keyDown_instantaneous_dispatch
    (registerShortcut (initialState none) 7 ["ctrl+k"] "t" "d" none 0)
    { key := "k", ctrlKey := true, altKey := false, metaKey := false, targetTagName := "DIV" }
    5 7).1 (by decide) (by decide) (by decide)

/-! ### Claim C2 : hold timing -/

/-- C2 counterexample: with a 300ms hold registered, after three 100ms
ticks (300ms of continuous hold, hence including the first tick at the
threshold) the single-key hold handler has not been invoked, because the
elapsed counter is incremented only after each tick's check; and for a
multi-key combo (`ctrl+s`), even after ten ticks (1000ms) the handler has
never been invoked, because hold durations are keyed by the full combo
string while the tick check looks up individual key tokens. -/
theorem holdTiming_counterexample :
    (ticksN (bareHoldState 1 0 0) 3).invoked = []
    ∧ (ticksN (comboHoldState 1 0 0) 10).invoked = [] := by
  exact ⟨by decide, by decide⟩

/-- C2 amended: for a hold shortcut registered with duration 300ms for a
single bare key pressed alone, the handler is not invoked during the
first three ticks (up to and including 300ms of hold), is invoked exactly
once on the fourth tick (~400ms, the first tick whose pre-increment
elapsed counter has reached 300), and no later tick invokes it again; a
key-up during the first three ticks clears the interval so no subsequent
tick ever invokes the handler for that press.  For a combo registered as
a multi-key `+`-joined string, the hold handler is invoked on no tick at
all (and no crash occurs): durations are stored under the full combo
string but the tick check looks up single key tokens. -/
theorem holdTiming_amended (h clock t0 : Nat) :
    (∀ n, n ≤ 3 → (ticksN (bareHoldState h clock t0) n).invoked = []
        ∧ (ticksN (bareHoldState h clock t0) n).crashed = false)
    ∧ (ticksN (bareHoldState h clock t0) 4).invoked = [h]
    ∧ (∀ m, (ticksN (ticksN (bareHoldState h clock t0) 4).state m).invoked = [])
    ∧ (∀ n, n ≤ 3 →
        (keyUp (ticksN (bareHoldState h clock t0) n).state
          { key := "a", ctrlKey := false, altKey := false, metaKey := false, targetTagName := "div" }).holdInterval = none
        ∧ ∀ m, (ticksN (keyUp (ticksN (bareHoldState h clock t0) n).state
            { key := "a", ctrlKey := false, altKey := false, metaKey := false, targetTagName := "div" }) m).invoked = [])
    ∧ (∀ n, (ticksN (comboHoldState h clock t0) n).invoked = []
        ∧ (ticksN (comboHoldState h clock t0) n).crashed = false) := by
  refine ⟨?_, ?_, ?_, ?_, ?_⟩
  · intro n hn
    interval_cases n <;> exact ⟨by rw [bareHoldState_eq]; rfl, by rw [bareHoldState_eq]; rfl⟩
  · rw [bareHoldState_eq]; rfl
  · intro m
    rw [ticksN_of_no_interval (by rw [bareHoldState_eq]; rfl) m]
  · intro n hn
    interval_cases n <;>
      exact ⟨by rw [bareHoldState_eq]; rfl,
        fun m => by rw [ticksN_of_no_interval (by rw [bareHoldState_eq]; rfl) m]⟩
  · intro n
    exact ticksN_comboHold n _ (by rw [comboHoldState_eq]) (by rw [comboHoldState_eq])

/-- Witness for C2 amended at concrete inputs (handler 1, clock 0, press
at time 0, two and five ticks respectively). -/
theorem holdTiming_amended_witness :
    (ticksN (bareHoldState 1 0 0) 2).invoked = []
    ∧ (ticksN (comboHoldState 1 0 0) 5).invoked = [] :=
  ⟨((holdTiming_amended 1 0 0).1 2 (by decide)).1,
   ((holdTiming_amended 1 0 0).2.2.2.2 5).1⟩

/-! ### Claim C3 : sequence inactivity window -/

/-- C3: with handler `h` registered for the sequence `a,b` and a fresh
buffer, pressing `a` at time `t0` (re)arms the 2000ms inactivity timeout
(cancelling any pending one by overwriting it); that timeout cannot fire
at any time before `t0 + 2000`, so pressing `b` within the window finds
the buffer `["a"]` and invokes `h`; from `t0 + 2000` on the timeout is
enabled, and once it has fired, a later press of `b` does not invoke
`h`. -/
theorem sequence_window (s : ProviderState) (h t0 t1 : Nat)
    (hsl : s.sequenceListeners = [("a,b", h)])
    (hpk : s.previousKeys = [])
    (hkd : s.keysDown = [])
    (hig : s.ignoreTagNames = none) :
    ((keyDown s { key := "a", ctrlKey := false, altKey := false, metaKey := false, targetTagName := "div" } t0).state.sequenceTimer = some (t0 + 2000))
    ∧ (∀ u, u < t0 + 2000 → ¬ seqTimeoutEnabled (keyDown s { key := "a", ctrlKey := false, altKey := false, metaKey := false, targetTagName := "div" } t0).state u)
    ∧ ((keyDown (keyDown s { key := "a", ctrlKey := false, altKey := false, metaKey := false, targetTagName := "div" } t0).state { key := "b", ctrlKey := false, altKey := false, metaKey := false, targetTagName := "div" } t1).seqInvoked = [h])
    ∧ seqTimeoutEnabled (keyDown s { key := "a", ctrlKey := false, altKey := false, metaKey := false, targetTagName := "div" } t0).state (t0 + 2000)
    ∧ ((keyDown (seqTimeout (keyDown s { key := "a", ctrlKey := false, altKey := false, metaKey := false, targetTagName := "div" } t0).state) { key := "b", ctrlKey := false, altKey := false, metaKey := false, targetTagName := "div" } t1).seqInvoked = []) := by
  have hguard : ¬ ((ignoreList s).contains (jsToLower "div") = true ∨ s.keysDown.contains (jsToLower "a") = true) := by
    rw [ignoreList, hig, hkd]
    decide
  have hr1 : (keyDown s { key := "a", ctrlKey := false, altKey := false, metaKey := false, targetTagName := "div" } t0).state =
      { s with keysDown := s.keysDown ++ ["a"], holdInterval := some { capturedKeys := ["a"], keyPress := "a" }, holdTimer := (resetTimer s).holdTimer, previousKeys := s.previousKeys ++ ["a"], sequenceTimer := some (t0 + 2000) } := by
    unfold keyDown
    rw [if_neg hguard]
    dsimp only [createTimer]
    cases hint : s.holdInterval <;>
      simp [resetTimer, hint, eventKeys, jsToLower, charLower, joinSep]
  have hseqInv : ∀ (r : ProviderState) (now : Nat),
      ¬ ((ignoreList r).contains (jsToLower "div") = true ∨ r.keysDown.contains (jsToLower "b") = true) →
      (keyDown r { key := "b", ctrlKey := false, altKey := false, metaKey := false, targetTagName := "div" } now).seqInvoked =
        (match lookupA r.sequenceListeners (joinSep "," (r.previousKeys ++ ["b"])) with
          | some x => [x]
          | none => []) := by
    intro r now hg
    unfold keyDown
    rw [if_neg hg]
    have hev : eventKeys { key := "b", ctrlKey := false, altKey := false, metaKey := false, targetTagName := "div" } = ["b"] := rfl
    dsimp only [createTimer]
    rw [hev]
    simp
  refine ⟨by rw [hr1], ?_, ?_, ?_, ?_⟩
  · intro u hu hen
    obtain ⟨exp, hexp, hle⟩ := hen
    rw [hr1] at hexp
    simp at hexp
    omega
  · rw [hr1, hseqInv _ t1 (by simp [ignoreList, hig, hkd]; decide)]
    dsimp only
    rw [hsl, hpk]
    rfl
  · exact ⟨t0 + 2000, by rw [hr1], Nat.le_refl _⟩
  · rw [hr1]
    rw [hseqInv _ t1 (by simp [seqTimeout, ignoreList, hig, hkd]; decide)]
    dsimp only [seqTimeout]
    rw [hsl]
    rfl

/-- Witness for C3 at a concrete state: sequence `["a","b"]` registered
with handler 9; `a` at 0ms then `b` at 1000ms (no timeout step in
between) invokes the handler. -/
theorem sequence_window_witness :
    (keyDown (keyDown (registerSequenceShortcut (initialState none) 9 ["a", "b"] "t" "d" 0) { key := "a", ctrlKey := false, altKey := false, metaKey := false, targetTagName := "div" } 0).state { key := "b", ctrlKey := false, altKey := false, metaKey := false, targetTagName := "div" } 1000).seqInvoked = [9] :=
  (sequence_window (registerSequenceShortcut (initialState none) 9 ["a", "b"] "t" "d" 0)
    9 0 1000 (by decide) (by decide) (by decide) (by decide)).2.2.1

/-! ### Claim C4 : conflicting registrations are silently dropped -/

/-- C4: a chord/hold registration whose transformed combos intersect the
target table's keys is dropped wholesale (state unchanged, so no routing
entry and no snapshot change); a sequence registration whose lower-cased
joined key is present in the sequence table is likewise dropped; and
registering the same single combo twice in the same mode (starting from a
state where its target table does not contain it) leaves the second call
without effect, exactly one routing entry for the combo, and exactly one
new snapshot entry. -/
theorem registration_conflict_drop (s : ProviderState) (m m2 : Nat)
    (keys : List String) (t d t2 d2 : String) (dur : Option Nat)
    (clock clock2 : Nat) (c : String) :
    ((transformKeys keys).any (fun k =>
        (((if dur.isSome then s.holdListeners else s.listeners)).map Prod.fst).contains k) = true →
      registerShortcut s m keys t d dur clock = s)
    ∧ ((s.sequenceListeners.map Prod.fst).contains (jsToLower (joinSep "," keys)) = true →
      registerSequenceShortcut s m keys t d clock = s)
    ∧ (lookupA (if dur.isSome then s.holdListeners else s.listeners) (transformOne c) = none →
      registerShortcut (registerShortcut s m [c] t d dur clock) m2 [c] t2 d2 dur clock2 =
          registerShortcut s m [c] t d dur clock
        ∧ (((if dur.isSome then (registerShortcut s m [c] t d dur clock).holdListeners
              else (registerShortcut s m [c] t d dur clock).listeners).filter
            (fun p => p.1 == transformOne c)).length = 1)
        ∧ (registerShortcut s m [c] t d dur clock).shortcuts.length = s.shortcuts.length + 1) := by
  refine ⟨?_, ?_, ?_⟩
  · intro hc
    unfold registerShortcut
    dsimp only
    rw [if_pos hc]
  · intro hc
    unfold registerSequenceShortcut
    dsimp only
    rw [if_pos hc]
  · intro hnone
    cases dur with
    | none =>
      have hnone' : lookupA s.listeners (transformOne c) = none := by simpa using hnone
      have hnc' : (s.listeners.map Prod.fst).contains (transformOne c) = false :=
        lookupA_none_not_contains hnone'
      have h1 : registerShortcut s m [c] t d none clock = { s with listeners := s.listeners ++ [(transformOne c, m)], shortcuts := s.shortcuts ++ [mkChordShortcut m [transformOne c] t d false 0 clock] } := by
        unfold registerShortcut
        dsimp only [transformKeys, List.map, List.foldl, Option.isSome]
        unfold insertA
        rw [hnc']
        simp
        intro x hx
        exact absurd (List.mem_map_of_mem Prod.fst hx) (by simpa using hnc')
      refine ⟨?_, ?_, by rw [h1]; simp⟩
      · rw [h1]
        simp [registerShortcut, transformKeys, insertA]
      · rw [h1]
        simp only [Option.isSome, Bool.false_eq_true, if_false]
        rw [List.filter_append, lookupA_filter_nil hnone']
        simp
    | some dd =>
      have hnone' : lookupA s.holdListeners (transformOne c) = none := by simpa using hnone
      have hnc' : (s.holdListeners.map Prod.fst).contains (transformOne c) = false :=
        lookupA_none_not_contains hnone'
      have h1 : registerShortcut s m [c] t d (some dd) clock = { s with holdDurations := insertA s.holdDurations (transformOne c) dd, holdListeners := s.holdListeners ++ [(transformOne c, m)], shortcuts := s.shortcuts ++ [mkChordShortcut m [transformOne c] t d true dd clock] } := by
        unfold registerShortcut
        dsimp only [transformKeys, List.map, List.foldl, Option.isSome]
        unfold insertA
        rw [hnc']
        simp
        intro x hx
        exact absurd (List.mem_map_of_mem Prod.fst hx) (by simpa using hnc')
      refine ⟨?_, ?_, by rw [h1]; simp⟩
      · rw [h1]
        simp [registerShortcut, transformKeys, insertA]
      · rw [h1]
        simp only [Option.isSome, if_true]
        rw [List.filter_append, lookupA_filter_nil hnone']
        simp

/-- Witness for C4 at concrete inputs: a second instantaneous
registration of `ctrl+k` has no effect. -/
theorem registration_conflict_drop_witness :
    registerShortcut (registerShortcut (initialState none) 1 ["ctrl+k"] "t" "d" none 0) 2 ["ctrl+k"] "t2" "d2" none 5 =
      registerShortcut (initialState none) 1 ["ctrl+k"] "t" "d" none 0 :=
  ((registration_conflict_drop (initialState none) 1 2 ["x"] "t" "d" "t2" "d2" none 0 5 "ctrl+k").2.2 (by decide)).1

/-- Effect of a successful single-combo instantaneous registration: the
combo is absent from the instantaneous table, so the listener entry is
appended and the shortcut recorded. -/
lemma registerShortcut_inst_eq (s : ProviderState) (m : Nat) (c : String)
    (t d : String) (clock : Nat)
    (hnc : (s.listeners.map Prod.fst).contains (transformOne c) = false) :
    registerShortcut s m [c] t d none clock = { s with listeners := s.listeners ++ [(transformOne c, m)], shortcuts := s.shortcuts ++ [mkChordShortcut m [transformOne c] t d false 0 clock] } := by
  unfold registerShortcut
  dsimp only [transformKeys, List.map, List.foldl, Option.isSome]
  unfold insertA
  rw [hnc]
  simp
  intro x hx
  exact absurd (List.mem_map_of_mem Prod.fst hx) (by simpa using hnc)

/-- Effect of a successful single-combo hold registration: the combo is
absent from the hold table, so the hold listener entry is appended, the
duration recorded, and the shortcut recorded. -/
lemma registerShortcut_hold_eq (s : ProviderState) (m : Nat) (c : String)
    (t d : String) (dd clock : Nat)
    (hnc : (s.holdListeners.map Prod.fst).contains (transformOne c) = false) :
    registerShortcut s m [c] t d (some dd) clock = { s with holdDurations := insertA s.holdDurations (transformOne c) dd, holdListeners := s.holdListeners ++ [(transformOne c, m)], shortcuts := s.shortcuts ++ [mkChordShortcut m [transformOne c] t d true dd clock] } := by
  unfold registerShortcut
  dsimp only [transformKeys, List.map, List.foldl, Option.isSome]
  unfold insertA
  rw [hnc]
  simp
  intro x hx
  exact absurd (List.mem_map_of_mem Prod.fst hx) (by simpa using hnc)

/-! ### Claim C7 : instantaneous and hold tables are independent -/

/-- C7: starting from a state whose instantaneous and hold tables both
lack the canonical form of combo `c`, registering `c` as instantaneous
and as hold — in either order — succeeds for both: afterwards the
instantaneous table maps it to the first handler, the hold table to the
second, and both shortcuts are appended to the snapshot. -/
theorem independent_mode_tables (s : ProviderState) (c : String) (h1 h2 : Nat)
    (t1 d1 t2 d2 : String) (dur clock1 clock2 : Nat)
    (hi : lookupA s.listeners (transformOne c) = none)
    (hh : lookupA s.holdListeners (transformOne c) = none) :
    (lookupA (registerShortcut (registerShortcut s h1 [c] t1 d1 none clock1) h2 [c] t2 d2 (some dur) clock2).listeners (transformOne c) = some h1
      ∧ lookupA (registerShortcut (registerShortcut s h1 [c] t1 d1 none clock1) h2 [c] t2 d2 (some dur) clock2).holdListeners (transformOne c) = some h2
      ∧ (registerShortcut (registerShortcut s h1 [c] t1 d1 none clock1) h2 [c] t2 d2 (some dur) clock2).shortcuts = s.shortcuts ++ [mkChordShortcut h1 [transformOne c] t1 d1 false 0 clock1, mkChordShortcut h2 [transformOne c] t2 d2 true dur clock2])
    ∧ (lookupA (registerShortcut (registerShortcut s h2 [c] t2 d2 (some dur) clock2) h1 [c] t1 d1 none clock1).listeners (transformOne c) = some h1
      ∧ lookupA (registerShortcut (registerShortcut s h2 [c] t2 d2 (some dur) clock2) h1 [c] t1 d1 none clock1).holdListeners (transformOne c) = some h2
      ∧ (registerShortcut (registerShortcut s h2 [c] t2 d2 (some dur) clock2) h1 [c] t1 d1 none clock1).shortcuts = s.shortcuts ++ [mkChordShortcut h2 [transformOne c] t2 d2 true dur clock2, mkChordShortcut h1 [transformOne c] t1 d1 false 0 clock1]) := by
  have hi' := lookupA_none_not_contains hi
  have hh' := lookupA_none_not_contains hh
  constructor
  · rw [registerShortcut_inst_eq s h1 c t1 d1 clock1 hi']
    rw [registerShortcut_hold_eq _ h2 c t2 d2 dur clock2 (by dsimp only; exact hh')]
    refine ⟨?_, ?_, by simp⟩
    · dsimp only
      exact lookupA_append_right h1 hi
    · dsimp only
      exact lookupA_append_right h2 hh
  · rw [registerShortcut_hold_eq s h2 c t2 d2 dur clock2 hh']
    rw [registerShortcut_inst_eq _ h1 c t1 d1 clock1 (by dsimp only; exact hi')]
    refine ⟨?_, ?_, by simp⟩
    · dsimp only
      exact lookupA_append_right h1 hi
    · dsimp only
      exact lookupA_append_right h2 hh

/-- Witness for C7 at concrete inputs: `ctrl+s` registered as
instantaneous (handler 1) then as hold (handler 2) from a fresh provider;
both table entries exist afterwards. -/
theorem independent_mode_tables_witness :
    lookupA (registerShortcut (registerShortcut (initialState none) 1 ["ctrl+s"] "t1" "d1" none 0) 2 ["ctrl+s"] "t2" "d2" (some 300) 1).listeners (transformOne "ctrl+s") = some 1
    ∧ lookupA (registerShortcut (registerShortcut (initialState none) 1 ["ctrl+s"] "t1" "d1" none 0) 2 ["ctrl+s"] "t2" "d2" (some 300) 1).holdListeners (transformOne "ctrl+s") = some 2 :=
  ⟨(independent_mode_tables (initialState none) "ctrl+s" 1 2 "t1" "d1" "t2" "d2" 300 0 1 (by decide) (by decide)).1.1,
   (independent_mode_tables (initialState none) "ctrl+s" 1 2 "t1" "d1" "t2" "d2" 300 0 1 (by decide) (by decide)).1.2.1⟩

/-! ### Claim C5 : unregistration semantics -/

/-- C5 counterexample: after registering a sequence shortcut for key
`a`, a non-sequence unregister of `["a"]` finds `a` absent from all
three chord routing tables (which are empty), leaves those tables
unchanged — yet removes the sequence shortcut from the snapshot by
subset matching, so an unregistration whose combos are absent from the
tables is not a snapshot no-op. -/
theorem unregister_absent_combo_counterexample :
    (registerSequenceShortcut (initialState none) 5 ["a"] "t" "d" 0).listeners = []
    ∧ (registerSequenceShortcut (initialState none) 5 ["a"] "t" "d" 0).holdListeners = []
    ∧ (registerSequenceShortcut (initialState none) 5 ["a"] "t" "d" 0).holdDurations = []
    ∧ (unregisterShortcut (registerSequenceShortcut (initialState none) 5 ["a"] "t" "d" 0) ["a"] false).listeners = []
    ∧ (unregisterShortcut (registerSequenceShortcut (initialState none) 5 ["a"] "t" "d" 0) ["a"] false).holdListeners = []
    ∧ (unregisterShortcut (registerSequenceShortcut (initialState none) 5 ["a"] "t" "d" 0) ["a"] false).holdDurations = []
    ∧ (unregisterShortcut (registerSequenceShortcut (initialState none) 5 ["a"] "t" "d" 0) ["a"] false).sequenceListeners = (registerSequenceShortcut (initialState none) 5 ["a"] "t" "d" 0).sequenceListeners
    ∧ (registerSequenceShortcut (initialState none) 5 ["a"] "t" "d" 0).shortcuts.length = 1
    ∧ (unregisterShortcut (registerSequenceShortcut (initialState none) 5 ["a"] "t" "d" 0) ["a"] false).shortcuts = [] := by
  decide

/-- C5 amended, for every `unregisterShortcut` call in either mode: a
shortcut is removed from the snapshot if and only if every key in its
stored `keys` occurs in the request's canonicalized key list (subset
match, so extra unrelated keys still remove) — the snapshot filter is the
same for sequence and non-sequence requests; deleting routing entries for
absent combos leaves the tables unchanged: a non-sequence call with its
transformed combos absent from the three chord tables leaves all of them
unchanged and never touches the sequence table, while a sequence call
never touches the three chord tables and leaves the sequence table
unchanged when the joined transformed key is absent from it; in either
mode the snapshot is unchanged exactly when no registered shortcut's
stored keys are all contained in the request — a condition a
sequence-registered shortcut or an empty-keyed shortcut can violate even
when the request's combos are absent from every routing table. -/
theorem unregister_subset_removal (s : ProviderState) (keys : List String)
    (sequence : Bool) (sc : Shortcut) :
    ((unregisterShortcut s keys sequence).shortcuts =
      s.shortcuts.filter (fun x => ! x.keys.all (fun k => (transformKeys keys).contains k)))
    ∧ (sc ∈ (unregisterShortcut s keys sequence).shortcuts ↔
        sc ∈ s.shortcuts ∧ ¬ (sc.keys.all (fun k => (transformKeys keys).contains k) = true))
    ∧ ((∀ k ∈ transformKeys keys, lookupA s.listeners k = none) →
        (unregisterShortcut s keys false).listeners = s.listeners)
    ∧ ((∀ k ∈ transformKeys keys, lookupA s.holdListeners k = none) →
        (unregisterShortcut s keys false).holdListeners = s.holdListeners)
    ∧ ((∀ k ∈ transformKeys keys, lookupA s.holdDurations k = none) →
        (unregisterShortcut s keys false).holdDurations = s.holdDurations)
    ∧ ((unregisterShortcut s keys false).sequenceListeners = s.sequenceListeners)
    ∧ ((unregisterShortcut s keys true).listeners = s.listeners
        ∧ (unregisterShortcut s keys true).holdListeners = s.holdListeners
        ∧ (unregisterShortcut s keys true).holdDurations = s.holdDurations)
    ∧ (lookupA s.sequenceListeners (joinSep "," (transformKeys keys)) = none →
        (unregisterShortcut s keys true).sequenceListeners = s.sequenceListeners)
    ∧ ((∀ x ∈ s.shortcuts, ¬ (x.keys.all (fun k => (transformKeys keys).contains k) = true)) →
        (unregisterShortcut s keys sequence).shortcuts = s.shortcuts) := by
  have hpred : ∀ x : Shortcut,
      (! x.keys.foldl (fun m k => m && (transformKeys keys).contains k) true) =
        (! x.keys.all (fun k => (transformKeys keys).contains k)) := by
    intro x
    rw [foldl_and_eq_all, Bool.true_and]
  have hsh : ∀ b : Bool, (unregisterShortcut s keys b).shortcuts =
      s.shortcuts.filter (fun x => ! x.keys.all (fun k => (transformKeys keys).contains k)) := by
    intro b
    unfold unregisterShortcut
    cases b <;> dsimp only <;> exact List.filter_congr (fun x _ => hpred x)
  refine ⟨hsh sequence, ?_, ?_, ?_, ?_, ?_, ⟨rfl, rfl, rfl⟩, ?_, ?_⟩
  · rw [hsh sequence]
    simp [List.mem_filter]
  · intro habs
    unfold unregisterShortcut
    dsimp only
    exact foldl_deleteA_absent habs
  · intro habs
    unfold unregisterShortcut
    dsimp only
    exact foldl_deleteA_absent habs
  · intro habs
    unfold unregisterShortcut
    dsimp only
    exact foldl_deleteA_absent habs
  · rfl
  · intro habs
    unfold unregisterShortcut
    dsimp only
    exact deleteA_absent habs
  · intro hall
    rw [hsh sequence]
    apply List.filter_eq_self.mpr
    intro x hx
    have hfalse := hall x hx
    rw [Bool.not_eq_true] at hfalse
    simpa using hfalse

/-- Witness for C5 amended at concrete states: a registered chord
shortcut with combos `a` and `b` is removed from the snapshot by a
sequence-mode unregister request `["a","b","c"]` containing an extra
unrelated key (the snapshot filter is mode-independent); unregistering a
key absent from a fresh provider leaves its (empty) instantaneous table
unchanged in non-sequence mode, and its (empty) sequence table unchanged
in sequence mode. -/
theorem unregister_subset_removal_witness :
    (unregisterShortcut (registerShortcut (initialState none) 3 ["a", "b"] "t" "d" none 0) ["a", "b", "c"] true).shortcuts =
      (registerShortcut (initialState none) 3 ["a", "b"] "t" "d" none 0).shortcuts.filter
        (fun x => ! x.keys.all (fun k => (transformKeys ["a", "b", "c"]).contains k))
    ∧ (unregisterShortcut (initialState none) ["x"] false).listeners = (initialState none).listeners
    ∧ (unregisterShortcut (initialState none) ["x"] true).sequenceListeners = (initialState none).sequenceListeners :=
  ⟨(unregister_subset_removal (registerShortcut (initialState none) 3 ["a", "b"] "t" "d" none 0)
      ["a", "b", "c"] true { description := "", hold := false, holdDuration := 0, id := "", keys := [], method := 0, sequence := false, title := "" }).1,
   (unregister_subset_removal (initialState none) ["x"] false { description := "", hold := false, holdDuration := 0, id := "", keys := [], method := 0, sequence := false, title := "" }).2.2.1 (by decide),
   (unregister_subset_removal (initialState none) ["x"] true { description := "", hold := false, holdDuration := 0, id := "", keys := [], method := 0, sequence := false, title := "" }).2.2.2.2.2.2.2.1 (by decide)⟩

/-! ### Claim C8 : stored keys are canonicalized -/

/-- C8 counterexample: one sequence registration from the initial state
(reachable in one step) stores the raw keys `["Cmd+K"]` in the snapshot
although their canonical form is `["meta+k"]`: `registerSequenceShortcut`
records its `keys` argument verbatim, so a snapshot shortcut can hold raw
user input. -/
theorem sequence_shortcut_keys_raw_counterexample :
    Reachable (registerSequenceShortcut (initialState none) 7 ["Cmd+K"] "t" "d" 0)
    ∧ (registerSequenceShortcut (initialState none) 7 ["Cmd+K"] "t" "d" 0).shortcuts.map Shortcut.keys = [["Cmd+K"]]
    ∧ transformKeys ["Cmd+K"] = ["meta+k"]
    ∧ (["Cmd+K"] : List String) ≠ ["meta+k"] :=
  ⟨Reachable.registerSeq 7 ["Cmd+K"] "t" "d" 0 (Reachable.init none), by decide, by decide, by decide⟩

/-- C8 amended: in every reachable state, every non-sequence shortcut in
the snapshot stores keys that are an output of the canonicalizer
(`transformKeys` of some raw list), never raw user input; sequence
registration, by contrast, stores its argument verbatim (see the
counterexample). -/
theorem chord_shortcut_keys_canonicalized (s : ProviderState) (hr : Reachable s) :
    ∀ sc ∈ s.shortcuts, sc.sequence = false → ∃ raw, sc.keys = transformKeys raw := by
  induction hr with
  | init ig => simp [initialState]
  | keyDown e now _ ih =>
    intro sc hsc hseq
    rw [keyDown_state_shortcuts] at hsc
    exact ih sc hsc hseq
  | keyUp e _ ih =>
    intro sc hsc hseq
    rw [keyUp_shortcuts] at hsc
    exact ih sc hsc hseq
  | tick _ ih =>
    intro sc hsc hseq
    rw [tick_state_shortcuts] at hsc
    exact ih sc hsc hseq
  | seqTimeout _ ih =>
    intro sc hsc hseq
    rw [seqTimeout_shortcuts] at hsc
    exact ih sc hsc hseq
  | register m keys t d dur clock _ ih =>
    intro sc hsc hseq
    rcases registerShortcut_shortcuts_cases _ m keys t d dur clock with hcase | hcase
    · rw [hcase] at hsc
      exact ih sc hsc hseq
    · rw [hcase] at hsc
      rcases List.mem_append.mp hsc with hmem | hmem
      · exact ih sc hmem hseq
      · have heq : sc = mkChordShortcut m (transformKeys keys) t d dur.isSome (dur.getD 0) clock := by
          simpa using hmem
        subst heq
        exact ⟨keys, rfl⟩
  | registerSeq m keys t d clock _ ih =>
    intro sc hsc hseq
    rcases registerSequenceShortcut_shortcuts_cases _ m keys t d clock with hcase | hcase
    · rw [hcase] at hsc
      exact ih sc hsc hseq
    · rw [hcase] at hsc
      rcases List.mem_append.mp hsc with hmem | hmem
      · exact ih sc hmem hseq
      · have heq : sc = mkSequenceShortcut m keys t d clock := by
          simpa using hmem
        rw [heq] at hseq
        simp [mkSequenceShortcut] at hseq
  | unregister keys seq _ ih =>
    intro sc hsc hseq
    exact ih sc (unregisterShortcut_shortcuts_subset _ keys seq sc hsc) hseq

/-- Witness for C8 amended at a concrete reachable state: the
chord shortcut stored after registering `["Cmd+K"]` holds canonicalizer
output. -/
theorem chord_shortcut_keys_canonicalized_witness :
    ∃ raw, (mkChordShortcut 1 ["meta+k"] "t" "d" false 0 0).keys = transformKeys raw :=
  chord_shortcut_keys_canonicalized
    (registerShortcut (initialState none) 1 ["Cmd+K"] "t" "d" none 0)
    (Reachable.register 1 ["Cmd+K"] "t" "d" none 0 (Reachable.init none))
    (mkChordShortcut 1 ["meta+k"] "t" "d" false 0 0) (by decide) (by decide)

/-! ### Claim C9 : id uniqueness -/

/-- C9 counterexample: two distinct successful registrations performed at
the same clock millisecond (`Date.now() = 0`) create two shortcuts (for
different combos, with different handlers) carrying the identical id
`"0"`: ids are not unique per process. -/
theorem registration_ids_collide_counterexample :
    (registerShortcut (registerShortcut (initialState none) 1 ["a"] "t" "d" none 0) 2 ["b"] "t" "d" none 0).shortcuts.map Shortcut.id = ["0", "0"]
    ∧ (registerShortcut (registerShortcut (initialState none) 1 ["a"] "t" "d" none 0) 2 ["b"] "t" "d" none 0).shortcuts.map Shortcut.method = [1, 2] := by
  exact ⟨by decide, by decide⟩

/-- C9 amended: a shortcut's id is the base-36 rendering of the clock at
registration time, so two registrations (chord or sequence, any
parameters) whose clock inputs differ receive distinct ids; registrations
within the same millisecond receive identical ids. -/
theorem registration_ids_distinct_clocks (m1 m2 : Nat) (ks1 ks2 : List String)
    (t1 d1 t2 d2 : String) (b1 b2 : Bool) (dd1 dd2 clock1 clock2 : Nat)
    (hc : clock1 ≠ clock2) :
    (mkChordShortcut m1 ks1 t1 d1 b1 dd1 clock1).id ≠ (mkChordShortcut m2 ks2 t2 d2 b2 dd2 clock2).id
    ∧ (mkSequenceShortcut m1 ks1 t1 d1 clock1).id ≠ (mkSequenceShortcut m2 ks2 t2 d2 clock2).id
    ∧ (mkChordShortcut m1 ks1 t1 d1 b1 dd1 clock1).id ≠ (mkSequenceShortcut m2 ks2 t2 d2 clock2).id := by
  refine ⟨fun h => hc (toB36_injective h), fun h => hc (toB36_injective h),
    fun h => hc (toB36_injective h)⟩

/-- Witness for C9 amended: clocks 0 and 1 give ids "0" and "1". -/
theorem registration_ids_distinct_clocks_witness :
    (mkChordShortcut 1 ["a"] "t" "d" false 0 0).id ≠ (mkChordShortcut 2 ["b"] "t" "d" false 0 1).id :=
  (registration_ids_distinct_clocks 1 2 ["a"] ["b"] "t" "d" "t" "d" false false 0 0 0 1 (by decide)).1

/-! ### Claim C10 : the hold tick can call an absent handler -/

/-- C10 (code bug): register a hold shortcut for the bare key `s`
(duration 300ms), then press `s` with ctrl held.  The tick callback
checks the duration under the single token `s` but invokes the hold
listener stored under the full combo string `ctrl+s`, which has no
entry: on the fourth tick the threshold check passes and the callback
calls an `undefined` value — a TypeError, modelled by `crashed = true` —
with no handler invoked; the first three ticks complete normally.  The
state is reachable in two steps from a fresh provider. -/
theorem hold_tick_absent_handler_crash :
    Reachable (keyDown (registerShortcut (initialState none) 3 ["s"] "T" "D" (some 300) 0) { key := "s", ctrlKey := true, altKey := false, metaKey := false, targetTagName := "div" } 0).state
    ∧ (ticksN (keyDown (registerShortcut (initialState none) 3 ["s"] "T" "D" (some 300) 0) { key := "s", ctrlKey := true, altKey := false, metaKey := false, targetTagName := "div" } 0).state 3).crashed = false
    ∧ (ticksN (keyDown (registerShortcut (initialState none) 3 ["s"] "T" "D" (some 300) 0) { key := "s", ctrlKey := true, altKey := false, metaKey := false, targetTagName := "div" } 0).state 4).crashed = true
    ∧ (ticksN (keyDown (registerShortcut (initialState none) 3 ["s"] "T" "D" (some 300) 0) { key := "s", ctrlKey := true, altKey := false, metaKey := false, targetTagName := "div" } 0).state 4).invoked = [] :=
  ⟨Reachable.keyDown _ 0 (Reachable.register 3 ["s"] "T" "D" (some 300) 0 (Reachable.init none)),
   by decide, by decide, by decide⟩
